import Mathlib

/-!
Shallow embedding of the retrieval-and-filtering query engine of the
protein-seq repository (src/backend/protein_query_engine.py,
src/backend/neon_query_engine.py, src/backend/neon_vector_store.py),
together with theorems settling the specification claims about it.

Numbers are modelled over the rationals, Python dictionaries as ordered
association lists, and the external gateways (embedding model, LLM, JSON
decoder, pgvector distance operator) as explicit function parameters.
-/

namespace ProteinSeq

/-- Scalar Python values occurring inside list-valued metadata fields (the
lists this program stores are JSON arrays of strings; no claim involves
nested lists, so list elements are modelled as scalars). -/
inductive PyScalar where
  | snone : PyScalar
  | sbool (b : Bool) : PyScalar
  | sint (n : Int) : PyScalar
  | sfloat (q : ℚ) : PyScalar
  | sstr (s : String) : PyScalar
deriving DecidableEq

/-- Python values as they occur in chunk metadata dictionaries: `None`,
booleans, ints, floats (modelled as rationals), strings and lists. -/
inductive PyVal where
  | pnone : PyVal
  | pbool (b : Bool) : PyVal
  | pint (n : Int) : PyVal
  | pfloat (q : ℚ) : PyVal
  | pstr (s : String) : PyVal
  | plist (l : List PyScalar) : PyVal
deriving DecidableEq

/-- Python truthiness (`if v:`) for the modelled values. -/
def pyTruthy : PyVal → Bool
  | .pnone => false
  | .pbool b => b
  | .pint n => n != 0
  | .pfloat q => q != 0
  | .pstr s => s != ""
  | .plist l => !l.isEmpty

/-- Python `int(v)` on the modelled values.  Floats truncate toward zero and
numeric strings parse; `int` of a non-numeric string raises in Python, which is
modelled as 0 here (no claim depends on that case). -/
def pyToInt : PyVal → Int
  | .pint n => n
  | .pbool b => if b then 1 else 0
  | .pfloat q => if q < 0 then -((-q).floor) else q.floor
  | .pstr s => (s.toInt?).getD 0
  | _ => 0

/-- A Python metadata dictionary: an ordered key-to-value association list. -/
abbrev Metadata := List (String × PyVal)

/-- `metadata.get(k, d)`: the first binding of `k`, or the default `d`. -/
def mdGet (md : Metadata) (k : String) (d : PyVal) : PyVal :=
  (md.lookup k).getD d

/-- View of a Python value as a list of strings: `some` exactly when the value
is a list all of whose elements are strings. -/
def pyStrListOpt : PyVal → Option (List String)
  | .plist l => l.mapM (fun v => match v with | .sstr s => some s | _ => Option.none)
  | _ => Option.none

/-- Total string-list view, defaulting to the empty list. -/
def asStrList (v : PyVal) : List String :=
  (pyStrListOpt v).getD []

/-- `ChunkResult` from protein_query_engine.py / neon_query_engine.py: a single
retrieved chunk with its similarity score and metadata dictionary. -/
structure ChunkResult where
  chunk_id : String
  text : String
  score : ℚ
  metadata : Metadata
deriving DecidableEq

/-- `ChunkResult.pmcid`: `self.metadata.get("pmcid", "")` (the raw value). -/
def ChunkResult.pmcidV (c : ChunkResult) : PyVal :=
  mdGet c.metadata "pmcid" (.pstr "")

/-- `ChunkResult.pmid`: `self.metadata.get("pmid", "")` (the raw value). -/
def ChunkResult.pmidV (c : ChunkResult) : PyVal :=
  mdGet c.metadata "pmid" (.pstr "")

/-- `ChunkResult.title`: `self.metadata.get("title", "")` (the raw value). -/
def ChunkResult.titleV (c : ChunkResult) : PyVal :=
  mdGet c.metadata "title" (.pstr "")

/-- `ChunkResult.year`: `int(year) if year else 0` on `metadata.get("year", 0)`. -/
def ChunkResult.yearV (c : ChunkResult) : Int :=
  let y := mdGet c.metadata "year" (.pint 0)
  if pyTruthy y then pyToInt y else 0

/-- `ChunkResult.proteins_mentioned` of the ChromaDB engine
(protein_query_engine.py lines 46-55): a string value is JSON-decoded
(`parse s = none` models a raised decode error, caught and replaced by `[]`;
the empty string short-circuits to `[]`), a list value is returned as is, and
any other value yields `[]`.  `parse` stands for the external `json.loads`. -/
def proteinsMentionedRawC (parse : String → Option PyVal) (c : ChunkResult) : PyVal :=
  match mdGet c.metadata "proteins_mentioned" (.pstr "") with
  | .pstr s => if s == "" then .plist [] else (parse s).getD (.plist [])
  | .plist l => .plist l
  | _ => .plist []

/-- `ChunkResult.aging_theories` of the ChromaDB engine (same shape handling as
`proteinsMentionedRawC`). -/
def theoriesRawC (parse : String → Option PyVal) (c : ChunkResult) : PyVal :=
  match mdGet c.metadata "aging_theories" (.pstr "") with
  | .pstr s => if s == "" then .plist [] else (parse s).getD (.plist [])
  | .plist l => .plist l
  | _ => .plist []

/-- `ChunkResult.proteins_mentioned` of the Neon engine (neon_query_engine.py
lines 41-44): `metadata.get("proteins_mentioned", [])`, returned only when it
is a list, else `[]`.  No JSON decoding. -/
def proteinsMentionedRawN (c : ChunkResult) : PyVal :=
  match mdGet c.metadata "proteins_mentioned" (.plist []) with
  | .plist l => .plist l
  | _ => .plist []

/-- `ChunkResult.aging_theories` of the Neon engine. -/
def theoriesRawN (c : ChunkResult) : PyVal :=
  match mdGet c.metadata "aging_theories" (.plist []) with
  | .plist l => .plist l
  | _ => .plist []

/-- String-list reading of the ChromaDB-engine protein accessor, used by the
consumers (`_filter_chunks`, protein aggregation), which iterate over the
entries as strings. -/
def ChunkResult.proteinsC (parse : String → Option PyVal) (c : ChunkResult) : List String :=
  asStrList (proteinsMentionedRawC parse c)

/-- String-list reading of the ChromaDB-engine theory accessor. -/
def ChunkResult.theoriesC (parse : String → Option PyVal) (c : ChunkResult) : List String :=
  asStrList (theoriesRawC parse c)

/-- String-list reading of the Neon-engine protein accessor. -/
def ChunkResult.proteinsN (c : ChunkResult) : List String :=
  asStrList (proteinsMentionedRawN c)

/-- String-list reading of the Neon-engine theory accessor. -/
def ChunkResult.theoriesN (c : ChunkResult) : List String :=
  asStrList (theoriesRawN c)

/-- A citation dictionary built by `_extract_citations`: the raw `pmcid`,
`pmid` and `title` metadata values, the parsed year and the chunk score it was
created from. -/
structure Citation where
  pmcid : PyVal
  pmid : PyVal
  title : PyVal
  year : Int
  relevance_score : ℚ
deriving DecidableEq

/-- The citation dictionary entry created from a chunk
(protein_query_engine.py lines 296-302 and neon_query_engine.py 180-186). -/
def mkCitation (c : ChunkResult) : Citation :=
  ⟨c.pmcidV, c.pmidV, c.titleV, c.yearV, c.score⟩

/-- The `citations_dict` loop of `_extract_citations`: walk the chunks in
order and, for each chunk whose `pmcid` is truthy and not yet a key of the
dictionary, append a citation built from that (first-seen) chunk.  The
accumulator is the dictionary in insertion order. -/
def citAux : List ChunkResult → List Citation → List Citation
  | [], acc => acc
  | c :: rest, acc =>
    if pyTruthy c.pmcidV && acc.all (fun d => decide (d.pmcid ≠ c.pmcidV)) then
      citAux rest (acc ++ [mkCitation c])
    else
      citAux rest acc

/-- Descending order on citations by `relevance_score` (the key function of
the `sorted(..., reverse=True)` call). -/
def citGE (a b : Citation) : Prop :=
  b.relevance_score ≤ a.relevance_score

instance : DecidableRel citGE := fun a b =>
  inferInstanceAs (Decidable (b.relevance_score ≤ a.relevance_score))

/-- `_extract_citations` (identical in protein_query_engine.py lines 281-311
and neon_query_engine.py lines 174-187): build the first-seen citation
dictionary, then sort its values by `relevance_score` descending.  Python
`sorted` is stable; a stable insertion sort models it. -/
def extractCitations (chunks : List ChunkResult) : List Citation :=
  List.insertionSort citGE (citAux chunks [])

/-- `_calculate_confidence` (identical in protein_query_engine.py lines
313-333 and neon_query_engine.py lines 189-194): 0.0 on the empty list, else
the mean of the first `min(3, len)` scores clamped to `[0, 1]`. -/
def calculateConfidence (chunks : List ChunkResult) : ℚ :=
  if chunks.isEmpty then 0
  else
    let top_scores := (chunks.take 3).map (fun c => c.score)
    let avg_score := top_scores.sum / (top_scores.length : ℚ)
    min (max avg_score 0) 1

/-- Python truthiness of an optional string argument (`if protein_filter:`):
`None` and the empty string are falsy. -/
def truthyStrOpt : Option String → Bool
  | Option.none => false
  | some s => s != ""

/-- Python `str.upper()` on the protein symbols (ASCII uppercasing,
character by character). -/
def pyUpper (s : String) : String :=
  String.mk (s.data.map Char.toUpper)

/-- The protein test of `_filter_chunks`:
`protein_upper in [p.upper() for p in chunk.proteins_mentioned]`. -/
def chunkHasProtein (parse : String → Option PyVal) (protein_upper : String)
    (c : ChunkResult) : Bool :=
  ((c.proteinsC parse).map pyUpper).contains protein_upper

/-- The theory test of `_filter_chunks`:
`any(theory in theory_set for theory in chunk.aging_theories)`. -/
def chunkHasTheory (parse : String → Option PyVal) (theory_filters : List String)
    (c : ChunkResult) : Bool :=
  (c.theoriesC parse).any (fun t => theory_filters.contains t)

/-- `ProteinQueryEngine._filter_chunks` (protein_query_engine.py lines
147-182): keep chunks mentioning the protein (case-insensitive, when the
filter is truthy), then keep chunks having at least one of the theories (when
the theory list is non-empty).  Order is preserved. -/
def filterChunks (parse : String → Option PyVal) (chunks : List ChunkResult)
    (protein_filter : Option String) (theory_filters : List String) : List ChunkResult :=
  let f1 :=
    if truthyStrOpt protein_filter then
      chunks.filter (chunkHasProtein parse (pyUpper (protein_filter.getD "")))
    else chunks
  if !theory_filters.isEmpty then
    f1.filter (chunkHasTheory parse theory_filters)
  else f1

/-- Outcome of the LLM gateway call inside `_synthesize_answer`: the client
may be missing, the chat completion may return text, or it may raise with a
message.  The prompt construction feeding the gateway is pure string
formatting and is irrelevant to every claim. -/
inductive LLMOutcome where
  | noClient : LLMOutcome
  | completed (answer : String) : LLMOutcome
  | failed (errMsg : String) : LLMOutcome
deriving DecidableEq

/-- `_synthesize_answer` (protein_query_engine.py lines 335-408 and
neon_query_engine.py lines 196-246): missing client short-circuits to a fixed
string; a gateway exception is caught and turned into
`"Error generating response: " + str(e)`; otherwise the completion text is
returned. -/
def synthesizeAnswer (llm : LLMOutcome) : String :=
  match llm with
  | .noClient => "LLM client not initialized"
  | .completed a => a
  | .failed e => "Error generating response: " ++ e

/-- `QueryResult` (same dataclass in both engines).  `query_time_ms` is
wall-clock time, modelled as 0. -/
structure QueryResult where
  query : String
  answer : String
  chunks : List ChunkResult
  citations : List Citation
  confidence : ℚ
  proteins_mentioned : List String
  theories_identified : List String
  query_time_ms : ℚ
  filters_applied : Option String × List String
deriving DecidableEq

/-- `sorted(set(...))` over strings: deduplicate, then sort ascending. -/
def sortedStringSet (l : List String) : List String :=
  List.insertionSort (fun a b => a ≤ b) l.eraseDups

/-- One raw result row of `self.collection.query(...)` on the ChromaDB
backend: id, document text, L2 distance and metadata.  The collection returns
rows in ascending distance order; the list models that ranking, and
`n_results = k` returns its first `k` rows. -/
structure RawHit where
  id : String
  document : String
  distance : ℚ
  metadata : Metadata
deriving DecidableEq

/-- The over-fetch computation of `ProteinQueryEngine.query` (line 212):
`search_k = top_k * 5 if (protein_filter or theory_filters) else top_k`. -/
def proteinSearchK (top_k : Nat) (protein_filter : Option String)
    (theory_filters : List String) : Nat :=
  if truthyStrOpt protein_filter || !theory_filters.isEmpty then top_k * 5 else top_k

/-- The chunk-building loop of `ProteinQueryEngine.query` (lines 220-237):
each returned row becomes a `ChunkResult` with
`score = 1.0 / (1.0 + distance)`. -/
def chromaChunks (raw : List RawHit) : List ChunkResult :=
  raw.map (fun r => ⟨r.id, r.document, 1 / (1 + r.distance), r.metadata⟩)

/-- The retrieval part of `ProteinQueryEngine.query` (lines 211-244): search
with the over-fetch `search_k`, convert rows to chunks, apply
`_filter_chunks` when a filter is given, truncate to `top_k`. -/
def proteinRetrieve (parse : String → Option PyVal) (store : List RawHit)
    (top_k : Nat) (protein_filter : Option String) (theory_filters : List String) :
    List ChunkResult :=
  let search_k := proteinSearchK top_k protein_filter theory_filters
  let chunks := chromaChunks (store.take search_k)
  let chunks :=
    if truthyStrOpt protein_filter || !theory_filters.isEmpty then
      filterChunks parse chunks protein_filter theory_filters
    else chunks
  chunks.take top_k

/-- `ProteinQueryEngine.query` (protein_query_engine.py lines 184-279).  The
embedding gateway result does not influence the modelled store ranking, so the
query embedding is absorbed into `store`; `llm` is the LLM-gateway outcome. -/
def proteinQuery (parse : String → Option PyVal) (store : List RawHit)
    (llm : LLMOutcome) (query_text : String) (top_k : Nat)
    (protein_filter : Option String) (theory_filters : List String)
    (synthesize : Bool) : QueryResult :=
  let chunks := proteinRetrieve parse store top_k protein_filter theory_filters
  let citations := extractCitations chunks
  let answer := if synthesize && !chunks.isEmpty then synthesizeAnswer llm else ""
  let confidence := calculateConfidence chunks
  { query := query_text
    answer := answer
    chunks := chunks
    citations := citations
    confidence := confidence
    proteins_mentioned := sortedStringSet ((chunks.map (fun c => c.proteinsC parse)).flatten)
    theories_identified := sortedStringSet ((chunks.map (fun c => c.theoriesC parse)).flatten)
    query_time_ms := 0
    filters_applied := (protein_filter, theory_filters) }

/-- A row of the relational table created by `NeonVectorStore._init_db`
(neon_vector_store.py lines 81-95): typed columns, with the two list fields
stored as JSON arrays of strings. -/
structure NeonRow where
  id : String
  text : String
  embedding : List ℚ
  pmcid : String
  pmid : String
  title : String
  year : Int
  proteins_mentioned : List String
  aging_theories : List String
  chunk_index : Int
deriving DecidableEq

/-- `SearchResult` from neon_vector_store.py. -/
structure SearchResult where
  id : String
  text : String
  score : ℚ
  metadata : Metadata
deriving DecidableEq

/-- The metadata dictionary assembled by `NeonVectorStore.search` (lines
227-235) from a fetched row. -/
def rowMetadata (r : NeonRow) : Metadata :=
  [("pmcid", .pstr r.pmcid),
   ("pmid", .pstr r.pmid),
   ("title", .pstr r.title),
   ("year", .pint r.year),
   ("proteins_mentioned", .plist (r.proteins_mentioned.map PyScalar.sstr)),
   ("aging_theories", .plist (r.aging_theories.map PyScalar.sstr)),
   ("chunk_index", .pint r.chunk_index)]

/-- Dot product of two rational vectors. -/
def dotQ (u v : List ℚ) : ℚ :=
  (List.zipWith (fun a b => a * b) u v).sum

/-- The pgvector cosine-distance operator `<=>`, specialized to unit vectors
(vectors of norm 1), where `1 - cos_sim u v = 1 - dotQ u v`.  Used to
instantiate the abstract distance parameter on concrete inputs. -/
def cosineDistanceUnit (u v : List ℚ) : ℚ :=
  1 - dotQ u v

/-- Ascending order on rows by distance to the query embedding: the
`ORDER BY embedding <=> %s::vector` clause. -/
def rowDistLE (dist : List ℚ → List ℚ → ℚ) (qe : List ℚ) (a b : NeonRow) : Prop :=
  dist a.embedding qe ≤ dist b.embedding qe

instance (dist : List ℚ → List ℚ → ℚ) (qe : List ℚ) : DecidableRel (rowDistLE dist qe) :=
  fun a b => inferInstanceAs (Decidable (dist a.embedding qe ≤ dist b.embedding qe))

/-- `NeonVectorStore.search` (neon_vector_store.py lines 180-240).  The SQL it
executes selects every row, orders by the distance operator and limits to
`top_k`, computing `score = 1 - (embedding <=> query)`.  The
`protein_filter` and `theory_filter` arguments are accepted but unused: the
SQL contains no WHERE clause ("Simple query without filters for now").
`dist` is the external distance operator `<=>`. -/
def neonSearch (table : List NeonRow) (dist : List ℚ → List ℚ → ℚ)
    (query_embedding : List ℚ) (top_k : Nat)
    (protein_filter : Option String) (theory_filter : Option String) :
    List SearchResult :=
  ((List.insertionSort (rowDistLE dist query_embedding) table).take top_k).map
    (fun r => ⟨r.id, r.text, 1 - dist r.embedding query_embedding, rowMetadata r⟩)

/-- The `top_k` argument that `NeonQueryEngine.query` passes to
`NeonVectorStore.search` (neon_query_engine.py line 123: `top_k=top_k`): it is
the caller's `top_k`, independent of the filters. -/
def neonRequestK (top_k : Nat) (protein_filter : Option String)
    (theory_filters : List String) : Nat :=
  top_k

/-- The retrieval part of `NeonQueryEngine.query` (lines 119-137): call the
store with the caller's `top_k` and the first theory filter
(`theory_filters[0] if theory_filters else None`), then convert each
`SearchResult` to a `ChunkResult`. -/
def neonRetrieve (table : List NeonRow) (dist : List ℚ → List ℚ → ℚ)
    (query_embedding : List ℚ) (top_k : Nat)
    (protein_filter : Option String) (theory_filters : List String) : List ChunkResult :=
  (neonSearch table dist query_embedding
      (neonRequestK top_k protein_filter theory_filters)
      protein_filter theory_filters.head?).map
    (fun r => ChunkResult.mk r.id r.text r.score r.metadata)

/-- `NeonQueryEngine.query` (neon_query_engine.py lines 105-172).
`query_embedding` is the embedding-gateway output for `query_text`. -/
def neonQuery (table : List NeonRow) (dist : List ℚ → List ℚ → ℚ)
    (llm : LLMOutcome) (query_text : String) (query_embedding : List ℚ)
    (top_k : Nat) (protein_filter : Option String) (theory_filters : List String)
    (synthesize : Bool) : QueryResult :=
  let chunks := neonRetrieve table dist query_embedding top_k protein_filter theory_filters
  let citations := extractCitations chunks
  let answer := if synthesize && !chunks.isEmpty then synthesizeAnswer llm else ""
  let confidence := calculateConfidence chunks
  { query := query_text
    answer := answer
    chunks := chunks
    citations := citations
    confidence := confidence
    proteins_mentioned := sortedStringSet ((chunks.map (fun c => c.proteinsN)).flatten)
    theories_identified := sortedStringSet ((chunks.map (fun c => c.theoriesN)).flatten)
    query_time_ms := 0
    filters_applied := (protein_filter, theory_filters) }

/-- `VectorChunk` from neon_vector_store.py. -/
structure VectorChunk where
  id : String
  text : String
  embedding : List ℚ
  metadata : Metadata
deriving DecidableEq

/-- String read of a metadata value with default `""`, for the typed TEXT
columns (non-string values would be rejected by the database; no claim
involves them). -/
def mdGetStr (md : Metadata) (k : String) : String :=
  match mdGet md k (.pstr "") with
  | .pstr s => s
  | _ => ""

/-- Integer read of a metadata value with default 0, for the INTEGER columns. -/
def mdGetInt (md : Metadata) (k : String) : Int :=
  match mdGet md k (.pint 0) with
  | .pint n => n
  | _ => 0

/-- String-list read of a metadata value with default `[]`, for the JSONB
columns (`json.dumps(chunk.metadata.get(key, []))`). -/
def mdGetStrList (md : Metadata) (k : String) : List String :=
  asStrList (mdGet md k (.plist []))

/-- The row built from a chunk by the INSERT of `add_chunks`
(neon_vector_store.py lines 134-147). -/
def rowOfChunk (c : VectorChunk) : NeonRow :=
  { id := c.id
    text := c.text
    embedding := c.embedding
    pmcid := mdGetStr c.metadata "pmcid"
    pmid := mdGetStr c.metadata "pmid"
    title := mdGetStr c.metadata "title"
    year := mdGetInt c.metadata "year"
    proteins_mentioned := mdGetStrList c.metadata "proteins_mentioned"
    aging_theories := mdGetStrList c.metadata "aging_theories"
    chunk_index := mdGetInt c.metadata "chunk_index" }

/-- `ON CONFLICT (id) DO UPDATE`: replace the row with a matching id in
place, else append. -/
def upsertRow (rows : List NeonRow) (r : NeonRow) : List NeonRow :=
  if rows.any (fun x => x.id == r.id) then
    rows.map (fun x => if x.id == r.id then r else x)
  else
    rows ++ [r]

/-- Errors of the modelled store.  `dimensionMismatch` is the database
rejecting a value whose length differs from the declared column type
`vector(embedding_dim)` (neon_vector_store.py line 85). -/
inductive StoreError where
  | dimensionMismatch : StoreError
deriving DecidableEq

/-- One row INSERT inside `add_chunks`: the `%s::vector` cast fails when the
embedding length differs from the declared dimension of the `embedding`
column; otherwise the upsert applies. -/
def insertChunk (dim : Nat) (rows : List NeonRow) (c : VectorChunk) :
    Except StoreError (List NeonRow) :=
  if c.embedding.length = dim then .ok (upsertRow rows (rowOfChunk c))
  else .error .dimensionMismatch

/-- The batch loop of `add_chunks` run over the uncommitted transaction
state.  Batching by `batch_size` only splits the same sequence of row inserts
and is semantically transparent (a single commit follows the whole loop), so
the rows are processed in order; the first failing insert aborts the
transaction. -/
def addChunksRun (dim : Nat) : List VectorChunk → List NeonRow →
    Except StoreError (List NeonRow)
  | [], rows => .ok rows
  | c :: cs, rows =>
    match insertChunk dim rows c with
    | .ok rows2 => addChunksRun dim cs rows2
    | .error e => .error e

/-- `NeonVectorStore.add_chunks` (neon_vector_store.py lines 115-178): on
success the transaction commits and the call returns the new table with the
number of chunks written; on error the exception propagates and the
connection closes without commit. -/
def add_chunks (dim : Nat) (rows : List NeonRow) (chunks : List VectorChunk) :
    Except StoreError (List NeonRow × Nat) :=
  (addChunksRun dim chunks rows).map (fun r => (r, chunks.length))

/-- The table visible after a call to `add_chunks`: the committed state on
success; on error, `conn.close()` without commit rolls the transaction back,
so the table is unchanged. -/
def tableAfterAdd (dim : Nat) (rows : List NeonRow) (chunks : List VectorChunk) :
    List NeonRow :=
  match add_chunks dim rows chunks with
  | .ok (r, _) => r
  | .error _ => rows

/-- `NeonVectorStore.count`: `SELECT COUNT(*)`. -/
def storeCount (rows : List NeonRow) : Nat :=
  rows.length

/-! ## Helper lemmas -/

instance : IsTotal Citation citGE :=
  ⟨fun a b => le_total b.relevance_score a.relevance_score⟩

instance : IsTrans Citation citGE :=
  ⟨fun _ _ _ h1 h2 => le_trans h2 h1⟩

/-- Inserting a citation into a list moves it past exactly the strictly
higher-scored elements, so filtering at any fixed score value sees the
inserted element first among its ties. -/
theorem filter_orderedInsert_citGE (q : ℚ) (a : Citation) (l : List Citation) :
    (List.orderedInsert citGE a l).filter (fun x => decide (x.relevance_score = q)) =
      if a.relevance_score = q then
        a :: l.filter (fun x => decide (x.relevance_score = q))
      else l.filter (fun x => decide (x.relevance_score = q)) := by
  induction l with
  | nil =>
    by_cases ha : a.relevance_score = q <;> simp [List.orderedInsert, ha]
  | cons b t ih =>
    by_cases hr : citGE a b
    · by_cases ha : a.relevance_score = q <;>
        by_cases hb : b.relevance_score = q <;>
        simp [List.orderedInsert, hr, ha, hb]
    · by_cases ha : a.relevance_score = q
      · have hbq : ¬ b.relevance_score = q := by
          intro hb
          exact hr (by simp [citGE, hb, ha])
        simp [List.orderedInsert, hr, ha, hbq, ih]
      · by_cases hbq : b.relevance_score = q <;>
          simp [List.orderedInsert, hr, ha, hbq, ih]

/-- Stability of the citation sort: filtering at any fixed score value
commutes with sorting, i.e. ties keep their pre-sort (first-seen) order. -/
theorem filter_insertionSort_citGE (q : ℚ) (l : List Citation) :
    (List.insertionSort citGE l).filter (fun x => decide (x.relevance_score = q)) =
      l.filter (fun x => decide (x.relevance_score = q)) := by
  induction l with
  | nil => rfl
  | cons a t ih =>
    simp only [List.insertionSort]
    rw [filter_orderedInsert_citGE]
    by_cases ha : a.relevance_score = q <;> simp [ha, ih]

/-- A batch containing a wrongly-sized embedding makes the insert loop fail. -/
theorem addChunksRun_error_of_bad (dim : Nat) :
    ∀ (chunks : List VectorChunk) (rows : List NeonRow),
      (∃ c ∈ chunks, c.embedding.length ≠ dim) →
      addChunksRun dim chunks rows = .error .dimensionMismatch := by
  intro chunks
  induction chunks with
  | nil => intro rows h; simp at h
  | cons c cs ih =>
    intro rows h
    by_cases hc : c.embedding.length = dim
    · have hcs : ∃ x ∈ cs, x.embedding.length ≠ dim := by
        rcases h with ⟨x, hx, hlen⟩
        rcases List.mem_cons.mp hx with rfl | hx2
        · exact absurd hc hlen
        · exact ⟨x, hx2, hlen⟩
      simp [addChunksRun, insertChunk, hc, ih _ hcs]
    · simp [addChunksRun, insertChunk, hc]

/-! ## Claim theorems -/

/-- C4: an upsert batch containing a chunk whose embedding length differs
from the store's configured dimension fails with the dimension-mismatch
error, and the store's count is unchanged by the failed call (the single
commit sits after the whole loop, so the transaction rolls back). -/
theorem C4_dimension_mismatch (dim : Nat) (rows : List NeonRow)
    (chunks : List VectorChunk) (h : ∃ c ∈ chunks, c.embedding.length ≠ dim) :
    add_chunks dim rows chunks = .error .dimensionMismatch ∧
    storeCount (tableAfterAdd dim rows chunks) = storeCount rows := by
  have he := addChunksRun_error_of_bad dim chunks rows h
  refine ⟨?_, ?_⟩
  · simp [add_chunks, he, Except.map]
  · simp [tableAfterAdd, add_chunks, he, Except.map]

/-- A concrete chunk with a 3-dimensional embedding, for the C4 witness. -/
def c4chunk : VectorChunk :=
  ⟨"id1", "txt", [1, 2, 3], []⟩

/-- Witness for C4: a store of dimension 4 rejects a batch holding a
3-dimensional chunk and its count stays 0. -/
theorem C4_dimension_mismatch_witness :
    (∃ c ∈ [c4chunk], c.embedding.length ≠ 4) ∧
    add_chunks 4 [] [c4chunk] = .error .dimensionMismatch ∧
    storeCount (tableAfterAdd 4 [] [c4chunk]) = storeCount [] := by
  have h : ∃ c ∈ [c4chunk], c.embedding.length ≠ 4 :=
    ⟨c4chunk, by simp, by decide⟩
  exact ⟨h, C4_dimension_mismatch 4 [] [c4chunk] h⟩

/-- C7: the confidence score is 0.0 on an empty hit list; otherwise it is the
arithmetic mean of the similarity scores of the first `min(3, len(hits))`
hits in the list's existing order, clamped to `[0, 1]`; and it always lies in
`[0, 1]`. -/
theorem C7_confidence_spec (chunks : List ChunkResult) :
    calculateConfidence ([] : List ChunkResult) = 0 ∧
    (chunks ≠ [] →
      calculateConfidence chunks =
        min (max
          (((chunks.take (min 3 chunks.length)).map (fun c => c.score)).sum /
            ((min 3 chunks.length : ℕ) : ℚ)) 0) 1) ∧
    0 ≤ calculateConfidence chunks ∧ calculateConfidence chunks ≤ 1 := by
  have htake : chunks.take (min 3 chunks.length) = chunks.take 3 := by
    rw [List.take_eq_take]
    simp [min_assoc]
  refine ⟨rfl, ?_, ?_, ?_⟩
  · intro hne
    have hempty : chunks.isEmpty = false := by
      simpa [List.isEmpty_iff] using hne
    simp only [calculateConfidence, hempty, Bool.false_eq_true, if_false, htake]
    congr 2
    simp [List.length_take]
  · by_cases hempty : chunks.isEmpty
    · simp [calculateConfidence, hempty]
    · simp only [calculateConfidence, hempty, Bool.false_eq_true, if_false]
      exact le_min (le_max_right _ _) zero_le_one
  · by_cases hempty : chunks.isEmpty
    · simp [calculateConfidence, hempty]
    · simp only [calculateConfidence, hempty, Bool.false_eq_true, if_false]
      exact min_le_right _ _

/-- A concrete two-element hit list with scores 1/2 and 1/4, for the C7
witness. -/
def c7hits : List ChunkResult :=
  [⟨"a", "", 1/2, []⟩, ⟨"b", "", 1/4, []⟩]

/-- Witness for C7 at `c7hits`: the confidence is the clamped mean of the
first two scores and lies in `[0, 1]`. -/
theorem C7_confidence_spec_witness :
    c7hits ≠ [] ∧
    calculateConfidence c7hits =
      min (max (((c7hits.take (min 3 c7hits.length)).map (fun c => c.score)).sum /
        ((min 3 c7hits.length : ℕ) : ℚ)) 0) 1 ∧
    0 ≤ calculateConfidence c7hits ∧ calculateConfidence c7hits ≤ 1 := by
  have h := C7_confidence_spec c7hits
  exact ⟨by decide, h.2.1 (by decide), h.2.2⟩

/-- C3 counterexample: with `top_k = 2` and a present protein filter, the
Neon engine's `search` call carries `top_k = 2` to the store, not
`top_k * 5 = 10` — the over-fetch claimed for "every call to the query
operation" does not happen on the Neon engine. -/
theorem C3_claim_counterexample :
    truthyStrOpt (some "APOE") = true ∧
    neonRequestK 2 (some "APOE") [] = 2 ∧ (2 : ℕ) ≠ 2 * 5 := by
  decide

/-- C3 amended: the ChromaDB engine requests `top_k * 5` candidates when a
filter is present and exactly `top_k` otherwise, and truncates its filtered
list to at most `top_k`; the Neon engine always requests exactly `top_k`
(delegating filtering to the store), so its hit list has exactly
`min top_k count` entries. -/
theorem C3_overfetch_amended (parse : String → Option PyVal) (store : List RawHit)
    (table : List NeonRow) (dist : List ℚ → List ℚ → ℚ) (llm : LLMOutcome)
    (q : String) (qe : List ℚ) (top_k : Nat) (pf : Option String)
    (tfs : List String) (syn : Bool) :
    ((truthyStrOpt pf || !tfs.isEmpty) = true → proteinSearchK top_k pf tfs = top_k * 5) ∧
    ((truthyStrOpt pf || !tfs.isEmpty) = false → proteinSearchK top_k pf tfs = top_k) ∧
    (proteinQuery parse store llm q top_k pf tfs syn).chunks.length ≤ top_k ∧
    neonRequestK top_k pf tfs = top_k ∧
    (neonQuery table dist llm q qe top_k pf tfs syn).chunks.length =
      min top_k (storeCount table) := by
  refine ⟨?_, ?_, ?_, rfl, ?_⟩
  · intro h; simp [proteinSearchK, h]
  · intro h; simp [proteinSearchK, h]
  · simp only [proteinQuery, proteinRetrieve]
    exact List.length_take_le _ _
  · simp [neonQuery, neonRetrieve, neonSearch, neonRequestK, List.length_take,
      List.length_insertionSort, storeCount]

/-- Witness for C3 at concrete inputs: a filtered call on the ChromaDB
engine over-fetches 10, an unfiltered one fetches 2, and the bounds hold on
empty stores. -/
theorem C3_overfetch_amended_witness :
    proteinSearchK 2 (some "APOE") [] = 2 * 5 ∧
    proteinSearchK 2 Option.none [] = 2 ∧
    (proteinQuery (fun _ => Option.none) [] LLMOutcome.noClient "q" 2 (some "APOE") []
      true).chunks.length ≤ 2 ∧
    neonRequestK 2 (some "APOE") [] = 2 ∧
    (neonQuery [] cosineDistanceUnit LLMOutcome.noClient "q" [1] 2 (some "APOE") []
      true).chunks.length = min 2 (storeCount []) := by
  have h1 := C3_overfetch_amended (fun _ => Option.none) [] [] cosineDistanceUnit
    LLMOutcome.noClient "q" [1] 2 (some "APOE") [] true
  have h2 := C3_overfetch_amended (fun _ => Option.none) [] [] cosineDistanceUnit
    LLMOutcome.noClient "q" [1] 2 Option.none [] true
  exact ⟨h1.1 (by decide), h2.2.1 (by decide), h1.2.2.1, h1.2.2.2.1, h1.2.2.2.2⟩

/-- Retrieval from an empty ChromaDB store yields no chunks. -/
theorem proteinRetrieve_nil (parse : String → Option PyVal) (top_k : Nat)
    (pf : Option String) (tfs : List String) :
    proteinRetrieve parse [] top_k pf tfs = [] := by
  simp [proteinRetrieve, chromaChunks, filterChunks]

/-- Retrieval from an empty relational store yields no chunks. -/
theorem neonRetrieve_nil (dist : List ℚ → List ℚ → ℚ) (qe : List ℚ) (top_k : Nat)
    (pf : Option String) (tfs : List String) :
    neonRetrieve [] dist qe top_k pf tfs = [] := by
  simp [neonRetrieve, neonSearch, List.insertionSort]

/-- The empty chunk list produces no citations. -/
theorem extractCitations_nil : extractCitations [] = [] := rfl

/-- C8: a query over a store whose search returns no hits yields a
QueryResult with empty chunks, empty citations, confidence 0 and answer `""`
regardless of `synthesize`; and on both engines the answer is `""` whenever
`synthesize` is false or the final hit list is empty. -/
theorem C8_empty_retrieval (parse : String → Option PyVal) (store : List RawHit)
    (table : List NeonRow) (dist : List ℚ → List ℚ → ℚ) (llm : LLMOutcome)
    (q : String) (qe : List ℚ) (top_k : Nat) (pf : Option String)
    (tfs : List String) (syn : Bool) :
    ((proteinQuery parse [] llm q top_k pf tfs syn).chunks = [] ∧
     (proteinQuery parse [] llm q top_k pf tfs syn).citations = [] ∧
     (proteinQuery parse [] llm q top_k pf tfs syn).confidence = 0 ∧
     (proteinQuery parse [] llm q top_k pf tfs syn).answer = "") ∧
    ((neonQuery [] dist llm q qe top_k pf tfs syn).chunks = [] ∧
     (neonQuery [] dist llm q qe top_k pf tfs syn).citations = [] ∧
     (neonQuery [] dist llm q qe top_k pf tfs syn).confidence = 0 ∧
     (neonQuery [] dist llm q qe top_k pf tfs syn).answer = "") ∧
    ((proteinQuery parse store llm q top_k pf tfs false).answer = "") ∧
    ((proteinQuery parse store llm q top_k pf tfs syn).chunks = [] →
      (proteinQuery parse store llm q top_k pf tfs syn).answer = "") ∧
    ((neonQuery table dist llm q qe top_k pf tfs false).answer = "") ∧
    ((neonQuery table dist llm q qe top_k pf tfs syn).chunks = [] →
      (neonQuery table dist llm q qe top_k pf tfs syn).answer = "") := by
  refine ⟨?_, ?_, ?_, ?_, ?_, ?_⟩
  · simp [proteinQuery, proteinRetrieve_nil, extractCitations_nil, calculateConfidence]
  · simp [neonQuery, neonRetrieve_nil, extractCitations_nil, calculateConfidence]
  · simp [proteinQuery]
  · simp only [proteinQuery]
    intro h
    simp [h]
  · simp [neonQuery]
  · simp only [neonQuery]
    intro h
    simp [h]

/-- Witness for C8 at concrete inputs (empty stores, `synthesize = true`,
and a nonempty-store call whose hit list is empty because `top_k = 0`). -/
theorem C8_empty_retrieval_witness :
    ((proteinQuery (fun _ => Option.none) [] (LLMOutcome.completed "a") "q" 3 Option.none []
        true).chunks = [] ∧
     (proteinQuery (fun _ => Option.none) [] (LLMOutcome.completed "a") "q" 3 Option.none []
        true).citations = [] ∧
     (proteinQuery (fun _ => Option.none) [] (LLMOutcome.completed "a") "q" 3 Option.none []
        true).confidence = 0 ∧
     (proteinQuery (fun _ => Option.none) [] (LLMOutcome.completed "a") "q" 3 Option.none []
        true).answer = "") ∧
    ((neonQuery [] cosineDistanceUnit (LLMOutcome.completed "a") "q" [1] 3 Option.none []
        true).chunks = [] ∧
     (neonQuery [] cosineDistanceUnit (LLMOutcome.completed "a") "q" [1] 3 Option.none []
        true).citations = [] ∧
     (neonQuery [] cosineDistanceUnit (LLMOutcome.completed "a") "q" [1] 3 Option.none []
        true).confidence = 0 ∧
     (neonQuery [] cosineDistanceUnit (LLMOutcome.completed "a") "q" [1] 3 Option.none []
        true).answer = "") ∧
    ((proteinQuery (fun _ => Option.none) [] (LLMOutcome.completed "a") "q" 3 Option.none []
        false).answer = "") ∧
    ((proteinQuery (fun _ => Option.none) [] (LLMOutcome.completed "a") "q" 3 Option.none []
        true).answer = "") ∧
    ((neonQuery [] cosineDistanceUnit (LLMOutcome.completed "a") "q" [1] 3 Option.none []
        false).answer = "") ∧
    ((neonQuery [] cosineDistanceUnit (LLMOutcome.completed "a") "q" [1] 3 Option.none []
        true).answer = "") := by
  have h := C8_empty_retrieval (fun _ => Option.none) [] [] cosineDistanceUnit
    (LLMOutcome.completed "a") "q" [1] 3 Option.none [] true
  exact ⟨h.1, h.2.1, h.2.2.1, h.2.2.2.1 h.1.1, h.2.2.2.2.1, h.2.2.2.2.2 h.2.1.1⟩

/-- C9: on both engines, a failure of the LLM gateway during answer
synthesis does not abort the query: `query` still returns a QueryResult
whose chunks, citations and confidence are the usual pure functions of the
retrieved hit list, and (when synthesis was attempted, i.e. the hit list is
non-empty) the answer field holds the error-message string instead of a
raised error. -/
theorem C9_synthesis_failure_degrades (parse : String → Option PyVal)
    (store : List RawHit) (table : List NeonRow) (dist : List ℚ → List ℚ → ℚ)
    (msg : String) (q : String) (qe : List ℚ) (top_k : Nat)
    (pf : Option String) (tfs : List String) :
    ((proteinQuery parse store (.failed msg) q top_k pf tfs true).chunks =
      proteinRetrieve parse store top_k pf tfs) ∧
    ((proteinQuery parse store (.failed msg) q top_k pf tfs true).citations =
      extractCitations (proteinRetrieve parse store top_k pf tfs)) ∧
    ((proteinQuery parse store (.failed msg) q top_k pf tfs true).confidence =
      calculateConfidence (proteinRetrieve parse store top_k pf tfs)) ∧
    (proteinRetrieve parse store top_k pf tfs ≠ [] →
      (proteinQuery parse store (.failed msg) q top_k pf tfs true).answer =
        "Error generating response: " ++ msg) ∧
    ((neonQuery table dist (.failed msg) q qe top_k pf tfs true).chunks =
      neonRetrieve table dist qe top_k pf tfs) ∧
    ((neonQuery table dist (.failed msg) q qe top_k pf tfs true).citations =
      extractCitations (neonRetrieve table dist qe top_k pf tfs)) ∧
    ((neonQuery table dist (.failed msg) q qe top_k pf tfs true).confidence =
      calculateConfidence (neonRetrieve table dist qe top_k pf tfs)) ∧
    (neonRetrieve table dist qe top_k pf tfs ≠ [] →
      (neonQuery table dist (.failed msg) q qe top_k pf tfs true).answer =
        "Error generating response: " ++ msg) := by
  refine ⟨rfl, rfl, rfl, ?_, rfl, rfl, rfl, ?_⟩
  · intro h
    have hemp : (proteinRetrieve parse store top_k pf tfs).isEmpty = false := by
      simpa [List.isEmpty_iff] using h
    simp [proteinQuery, hemp, synthesizeAnswer]
  · intro h
    have hemp : (neonRetrieve table dist qe top_k pf tfs).isEmpty = false := by
      simpa [List.isEmpty_iff] using h
    simp [neonQuery, hemp, synthesizeAnswer]

/-- A one-row ChromaDB result set, for the C9 witness. -/
def c9raw : List RawHit :=
  [⟨"idA", "docA", 0, [("pmcid", .pstr "PMC9")]⟩]

/-- A one-row relational table, for the C9 witness. -/
def c9row : NeonRow :=
  ⟨"idB", "docB", [1, 0], "PMC9", "9", "t", 2020, ["APOE"], [], 0⟩

/-- Witness for C9 at concrete non-empty stores and a failing gateway. -/
theorem C9_synthesis_failure_degrades_witness :
    ((proteinQuery (fun _ => Option.none) c9raw (.failed "boom") "q" 3 Option.none []
        true).chunks = proteinRetrieve (fun _ => Option.none) c9raw 3 Option.none []) ∧
    ((proteinQuery (fun _ => Option.none) c9raw (.failed "boom") "q" 3 Option.none []
        true).answer = "Error generating response: " ++ "boom") ∧
    ((neonQuery [c9row] cosineDistanceUnit (.failed "boom") "q" [1, 0] 3 Option.none []
        true).chunks = neonRetrieve [c9row] cosineDistanceUnit [1, 0] 3 Option.none []) ∧
    ((neonQuery [c9row] cosineDistanceUnit (.failed "boom") "q" [1, 0] 3 Option.none []
        true).answer = "Error generating response: " ++ "boom") := by
  have h := C9_synthesis_failure_degrades (fun _ => Option.none) c9raw [c9row]
    cosineDistanceUnit "boom" "q" [1, 0] 3 Option.none []
  exact ⟨h.1, h.2.2.2.1 (by decide), h.2.2.2.2.1, h.2.2.2.2.2.2.2 (by decide)⟩

/-- The protein test holds exactly when some protein entry matches the
uppercased filter. -/
theorem chunkHasProtein_iff (parse : String → Option PyVal) (p : String)
    (c : ChunkResult) :
    chunkHasProtein parse (pyUpper p) c = true ↔
      ∃ s ∈ c.proteinsC parse, pyUpper s = pyUpper p := by
  simp [chunkHasProtein, List.elem_iff, List.mem_map]

/-- C6: for every hit list `H` and non-empty protein filter `p` (and no
theory filter), every hit the chunk filter returns is a hit of `H` with `p`
case-insensitively equal to some entry of its `proteins_mentioned` (both
sides uppercased), and every hit of `H` without such an entry is excluded.
The hypothesis `hw` restricts to metadata whose protein field reads back as
a list of strings, which is exactly the domain where the Python
comprehension `[p.upper() for p in chunk.proteins_mentioned]` is defined. -/
theorem C6_protein_filter_invariant (parse : String → Option PyVal)
    (H : List ChunkResult) (p : String) (hp : p ≠ "")
    (hw : ∀ c ∈ H, (pyStrListOpt (proteinsMentionedRawC parse c)).isSome = true) :
    (∀ c ∈ filterChunks parse H (some p) [],
        c ∈ H ∧ ∃ s ∈ c.proteinsC parse, pyUpper s = pyUpper p) ∧
    (∀ c ∈ H, (¬ ∃ s ∈ c.proteinsC parse, pyUpper s = pyUpper p) →
        c ∉ filterChunks parse H (some p) []) := by
  have htru : truthyStrOpt (some p) = true := by
    simp [truthyStrOpt, hp]
  have hfc : filterChunks parse H (some p) [] =
      H.filter (chunkHasProtein parse (pyUpper p)) := by
    simp [filterChunks, htru]
  refine ⟨?_, ?_⟩
  · intro c hc
    rw [hfc] at hc
    rcases List.mem_filter.mp hc with ⟨hcH, hcp⟩
    exact ⟨hcH, (chunkHasProtein_iff parse p c).mp hcp⟩
  · intro c _ hnot hcmem
    rw [hfc] at hcmem
    rcases List.mem_filter.mp hcmem with ⟨_, hcp⟩
    exact hnot ((chunkHasProtein_iff parse p c).mp hcp)

/-- A hit mentioning APOE (lower-case in the metadata), for the C6 witness. -/
def c6apoe : ChunkResult :=
  ⟨"h1", "", 9/10, [("pmcid", .pstr "P1"),
    ("proteins_mentioned", .plist [.sstr "apoe"])]⟩

/-- A hit mentioning only TP53, for the C6 witness. -/
def c6tp53 : ChunkResult :=
  ⟨"h2", "", 8/10, [("pmcid", .pstr "P2"),
    ("proteins_mentioned", .plist [.sstr "TP53"])]⟩

/-- Witness for C6 at a concrete two-hit list and the filter "APOE": the
case-insensitive match survives and the non-matching hit is excluded. -/
theorem C6_protein_filter_invariant_witness :
    ("APOE" : String) ≠ "" ∧
    (∀ c ∈ [c6apoe, c6tp53],
      (pyStrListOpt (proteinsMentionedRawC (fun _ => Option.none) c)).isSome = true) ∧
    (∀ c ∈ filterChunks (fun _ => Option.none) [c6apoe, c6tp53] (some "APOE") [],
        c ∈ [c6apoe, c6tp53] ∧
        ∃ s ∈ c.proteinsC (fun _ => Option.none), pyUpper s = pyUpper ("APOE" : String)) ∧
    (∀ c ∈ [c6apoe, c6tp53],
      (¬ ∃ s ∈ c.proteinsC (fun _ => Option.none), pyUpper s = pyUpper ("APOE" : String)) →
        c ∉ filterChunks (fun _ => Option.none) [c6apoe, c6tp53] (some "APOE") []) := by
  have hp : ("APOE" : String) ≠ "" := by decide
  have hw : ∀ c ∈ [c6apoe, c6tp53],
      (pyStrListOpt (proteinsMentionedRawC (fun _ => Option.none) c)).isSome = true := by
    decide
  have h := C6_protein_filter_invariant (fun _ => Option.none) [c6apoe, c6tp53] "APOE" hp hw
  exact ⟨hp, hw, h.1, h.2⟩

/-- A relational-store row whose embedding `[-1, 0]` is a unit vector
antipodal to the query `[1, 0]`, for the C5 counterexample. -/
def c5row : NeonRow :=
  ⟨"r", "", [-1, 0], "P", "", "", 0, [], [], 0⟩

/-- C5 counterexample: on the relational backend the hit score is
`1 - cosine_distance`, which is -1 for antipodal unit vectors — outside
`[0, 1]`.  The two `dotQ` conjuncts record that both vectors are unit
vectors, so `cosineDistanceUnit` is the true cosine distance here. -/
theorem C5_claim_counterexample :
    (neonSearch [c5row] cosineDistanceUnit [1, 0] 1 Option.none Option.none).map
      (fun h => h.score) = [-1] ∧
    ¬ ((0 : ℚ) ≤ -1) ∧
    dotQ c5row.embedding c5row.embedding = 1 ∧
    dotQ [1, 0] [1, 0] = 1 := by
  refine ⟨?_, by norm_num, ?_, ?_⟩
  · simp only [neonSearch, List.insertionSort, List.orderedInsert, List.take,
      List.map, c5row, cosineDistanceUnit, dotQ, List.zipWith, List.sum_cons,
      List.sum_nil]
    norm_num
  · simp only [c5row, dotQ, List.zipWith, List.sum_cons, List.sum_nil]
    norm_num
  · simp only [dotQ, List.zipWith, List.sum_cons, List.sum_nil]
    norm_num

/-- C5 amended: ChromaDB-backend hits have `score = 1/(1 + distance)`, which
lies in `(0, 1]` whenever the store's distances are nonnegative (so in
particular in `[0, 1]`, with 1.0 exactly at distance 0); relational-backend
hits have `score = 1 - cosine_distance`, which only lies in `[-1, 1]` for
the operator's range `[0, 2]` and is negative whenever the query and row
embeddings have negative cosine similarity. -/
theorem C5_scores_amended (raw : List RawHit) (table : List NeonRow)
    (dist : List ℚ → List ℚ → ℚ) (qe : List ℚ) (top_k : Nat)
    (pf tf : Option String)
    (hchroma : ∀ r ∈ raw, 0 ≤ r.distance)
    (hneon : ∀ r ∈ table, 0 ≤ dist r.embedding qe ∧ dist r.embedding qe ≤ 2) :
    (∀ c ∈ chromaChunks raw, 0 < c.score ∧ c.score ≤ 1) ∧
    (∀ r ∈ raw, ((1 : ℚ) / (1 + r.distance) = 1 ↔ r.distance = 0)) ∧
    (∀ h ∈ neonSearch table dist qe top_k pf tf, -1 ≤ h.score ∧ h.score ≤ 1) := by
  refine ⟨?_, ?_, ?_⟩
  · intro c hc
    rcases List.mem_map.mp hc with ⟨r, hr, rfl⟩
    have hd : 0 ≤ r.distance := hchroma r hr
    have hpos : (0 : ℚ) < 1 + r.distance := by linarith
    refine ⟨by positivity, ?_⟩
    rw [div_le_one hpos]
    linarith
  · intro r hr
    have hd : 0 ≤ r.distance := hchroma r hr
    have hpos : (0 : ℚ) < 1 + r.distance := by linarith
    rw [div_eq_one_iff_eq (ne_of_gt hpos)]
    constructor
    · intro h1; linarith
    · intro h1; rw [h1]; norm_num
  · intro h hmem
    rcases List.mem_map.mp hmem with ⟨r, hr, rfl⟩
    have hrt : r ∈ table :=
      (List.mem_insertionSort (rowDistLE dist qe)).mp (List.take_subset _ _ hr)
    have hb := hneon r hrt
    constructor
    · simp only
      linarith [hb.2]
    · simp only
      linarith [hb.1]

/-- A zero-distance raw hit, for the C5 witness. -/
def c5raw : List RawHit :=
  [⟨"a", "doc", 0, []⟩]

/-- Witness for C5 at concrete stores: a ChromaDB hit at distance 0 has
score 1 and a relational hit identical to the query has score 1. -/
theorem C5_scores_amended_witness :
    (∀ r ∈ c5raw, 0 ≤ r.distance) ∧
    (∀ r ∈ [c9row], 0 ≤ cosineDistanceUnit r.embedding [1, 0] ∧
      cosineDistanceUnit r.embedding [1, 0] ≤ 2) ∧
    (∀ c ∈ chromaChunks c5raw, 0 < c.score ∧ c.score ≤ 1) ∧
    (∀ r ∈ c5raw, ((1 : ℚ) / (1 + r.distance) = 1 ↔ r.distance = 0)) ∧
    (∀ h ∈ neonSearch [c9row] cosineDistanceUnit [1, 0] 1 Option.none Option.none,
      -1 ≤ h.score ∧ h.score ≤ 1) := by
  have h1 : ∀ r ∈ c5raw, (0 : ℚ) ≤ r.distance := by
    intro r hr
    simp only [c5raw, List.mem_singleton] at hr
    simp [hr]
  have h2 : ∀ r ∈ [c9row], 0 ≤ cosineDistanceUnit r.embedding [1, 0] ∧
      cosineDistanceUnit r.embedding [1, 0] ≤ 2 := by
    intro r hr
    simp only [List.mem_singleton] at hr
    subst hr
    simp only [c9row, cosineDistanceUnit, dotQ, List.zipWith, List.sum_cons, List.sum_nil]
    norm_num
  have h := C5_scores_amended c5raw [c9row] cosineDistanceUnit [1, 0] 1
    Option.none Option.none h1 h2
  exact ⟨h1, h2, h.1, h.2.1, h.2.2⟩

/-- A relational-store row mentioning only TP53 and the oxidative-stress
theory, for the C1 failing input. -/
def c1row : NeonRow :=
  ⟨"x1", "chunk text", [1, 0], "PMC1", "1", "title", 2020,
    ["TP53"], ["oxidative stress"], 0⟩

/-- C1, evaluation at the failing input: `NeonVectorStore.search` called with
`protein_filter = "APOE"` and `theory_filter = "telomere"` still returns the
only stored row, whose `proteins_mentioned` does not contain APOE (under any
casing) and whose `aging_theories` does not intersect the theory filter —
no SQL WHERE predicate is generated, the filters are ignored. -/
theorem C1_relational_search_ignores_filters :
    neonSearch [c1row] cosineDistanceUnit [1, 0] 1 (some "APOE") (some "telomere") =
      [⟨"x1", "chunk text", 1, rowMetadata c1row⟩] ∧
    c1row.proteins_mentioned = ["TP53"] ∧
    "APOE" ∉ c1row.proteins_mentioned.map pyUpper ∧
    c1row.aging_theories = ["oxidative stress"] ∧
    "telomere" ∉ c1row.aging_theories := by
  have hs : 1 - cosineDistanceUnit c1row.embedding [1, 0] = 1 := by
    simp only [c1row, cosineDistanceUnit, dotQ, List.zipWith, List.sum_cons, List.sum_nil]
    norm_num
  refine ⟨?_, by decide, by decide, by decide, by decide⟩
  simp only [neonSearch, List.insertionSort, List.orderedInsert, List.take, List.map, hs]
  simp [c1row]

/-- Every entry of the citation dictionary is either inherited from the
accumulator or built from the first chunk carrying its (truthy) pmcid, a
pmcid no accumulator entry has. -/
theorem citAux_mem :
    ∀ (chunks : List ChunkResult) (acc : List Citation) (cit : Citation),
      cit ∈ citAux chunks acc →
      cit ∈ acc ∨
        (pyTruthy cit.pmcid = true ∧ (∀ d ∈ acc, d.pmcid ≠ cit.pmcid) ∧
         ∃ h, chunks.find? (fun x => decide (x.pmcidV = cit.pmcid)) = some h ∧
           cit = mkCitation h) := by
  intro chunks
  induction chunks with
  | nil =>
    intro acc cit hmem
    exact Or.inl hmem
  | cons c rest ih =>
    intro acc cit hmem
    by_cases hc : (pyTruthy c.pmcidV &&
        acc.all (fun d => decide (d.pmcid ≠ c.pmcidV))) = true
    · rw [citAux, if_pos hc] at hmem
      have hc2 := hc
      rw [Bool.and_eq_true] at hc2
      obtain ⟨ht, hall⟩ := hc2
      rcases ih (acc ++ [mkCitation c]) cit hmem with hin | ⟨htru, hnone, h, hfind, hcit⟩
      · rcases List.mem_append.mp hin with hin2 | hin3
        · exact Or.inl hin2
        · have hcc : cit = mkCitation c := by simpa using hin3
          subst hcc
          refine Or.inr ⟨ht, ?_, c, ?_, rfl⟩
          · intro d hd
            have hda := List.all_eq_true.mp hall d hd
            simpa [mkCitation] using of_decide_eq_true hda
          · exact List.find?_cons_of_pos _ (by simp [mkCitation])
      · have hne : c.pmcidV ≠ cit.pmcid := by
          intro he
          exact (hnone (mkCitation c) (by simp)) (by simpa [mkCitation] using he)
        refine Or.inr ⟨htru, fun d hd => hnone d (List.mem_append_left _ hd),
          h, ?_, hcit⟩
        rw [List.find?_cons_of_neg]
        · exact hfind
        · simp [hne]
    · rw [citAux, if_neg hc] at hmem
      rcases ih acc cit hmem with hin | ⟨htru, hnone, h, hfind, hcit⟩
      · exact Or.inl hin
      · have hne : c.pmcidV ≠ cit.pmcid := by
          intro he
          apply hc
          rw [Bool.and_eq_true]
          refine ⟨he ▸ htru, List.all_eq_true.mpr ?_⟩
          intro d hd
          exact decide_eq_true (he ▸ hnone d hd)
        refine Or.inr ⟨htru, hnone, h, ?_, hcit⟩
        rw [List.find?_cons_of_neg]
        · exact hfind
        · simp [hne]

/-- Counting citations with a fixed pmcid: the dictionary gains exactly one
entry for a truthy pmcid occurring among the chunks and not yet present in
the accumulator. -/
theorem citAux_countP (p : PyVal) :
    ∀ (chunks : List ChunkResult) (acc : List Citation),
      (citAux chunks acc).countP (fun d => decide (d.pmcid = p)) =
        acc.countP (fun d => decide (d.pmcid = p)) +
        (if (pyTruthy p && acc.all (fun d => decide (d.pmcid ≠ p)) &&
             chunks.any (fun h => decide (h.pmcidV = p))) = true then 1 else 0) := by
  intro chunks
  induction chunks with
  | nil =>
    intro acc
    simp [citAux]
  | cons c rest ih =>
    intro acc
    by_cases hc : (pyTruthy c.pmcidV &&
        acc.all (fun d => decide (d.pmcid ≠ c.pmcidV))) = true
    · rw [citAux, if_pos hc, ih]
      have hc2 := hc
      rw [Bool.and_eq_true] at hc2
      obtain ⟨ht, hall⟩ := hc2
      by_cases hp : c.pmcidV = p
      · subst hp
        have hprop : ∀ x ∈ acc, ¬ x.pmcid = c.pmcidV := by
          simpa [List.all_eq_true] using hall
        simp [List.countP_append, List.countP_cons, List.countP_nil,
          List.all_append, List.any_cons, mkCitation, ht, hprop]
        exact (if_pos hprop).symm
      · have h1 : decide ((mkCitation c).pmcid = p) = false := by
          simp [mkCitation, hp]
        have h2 : ((mkCitation c).pmcid ≠ p) := by
          simp [mkCitation, hp]
        have h3 : decide (c.pmcidV = p) = false := by
          simp [hp]
        simp [List.countP_append, List.countP_cons, List.countP_nil,
          List.all_append, List.any_cons, h1, h2, h3]
    · rw [citAux, if_neg hc, ih]
      by_cases hp : c.pmcidV = p
      · subst hp
        by_cases hty : pyTruthy c.pmcidV = true
        · by_cases hacc : acc.all (fun d => decide (d.pmcid ≠ c.pmcidV)) = true
          · exact absurd (by rw [Bool.and_eq_true]; exact ⟨hty, hacc⟩) hc
          · have hacc2 : ¬ ∀ x ∈ acc, ¬ x.pmcid = c.pmcidV := by
              simpa [List.all_eq_true] using hacc
            simp [List.any_cons, hty, hacc2]
        · have hty2 : pyTruthy c.pmcidV = false := by
            simpa using hty
          simp [List.any_cons, hty2]
      · have h3 : decide (c.pmcidV = p) = false := by
          simp [hp]
        simp [List.any_cons, h3]

/-- A hit with pmcid P1 and score 1, seen first, for the C2 counterexample. -/
def c2hitA : ChunkResult :=
  ⟨"a", "", 1, [("pmcid", .pstr "P1")]⟩

/-- A hit with the same pmcid P1 and the larger score 2, seen second. -/
def c2hitB : ChunkResult :=
  ⟨"b", "", 2, [("pmcid", .pstr "P1")]⟩

/-- C2 counterexample: on the hit list `[c2hitA, c2hitB]` — two hits sharing
pmcid P1 with scores 1 and 2 — the extracted citation has
`relevance_score = 1`, the score of the first-seen hit, whereas the maximum
score among hits sharing that pmcid is 2. -/
theorem C2_claim_counterexample :
    extractCitations [c2hitA, c2hitB] =
      [⟨.pstr "P1", .pstr "", .pstr "", 0, 1⟩] ∧
    c2hitB.pmcidV = c2hitA.pmcidV ∧
    c2hitA.score = 1 ∧ c2hitB.score = 2 ∧ (1 : ℚ) ≠ 2 := by
  decide

/-- C2 amended: citation extraction produces exactly one citation per
distinct non-empty (truthy) pmcid, each citation being built entirely — title,
pmid, year and `relevance_score` — from the first-seen hit of its group (so
the relevance equals the group maximum only when the input is sorted
descending by score), and the citations are sorted descending by
`relevance_score`, ties keeping the first-seen dictionary order. -/
theorem C2_citations_amended (hits : List ChunkResult) :
    (∀ p : PyVal,
      (extractCitations hits).countP (fun d => decide (d.pmcid = p)) =
        (if (pyTruthy p && hits.any (fun h => decide (h.pmcidV = p))) = true
         then 1 else 0)) ∧
    (∀ cit ∈ extractCitations hits,
      pyTruthy cit.pmcid = true ∧
      ∃ h, hits.find? (fun x => decide (x.pmcidV = cit.pmcid)) = some h ∧
        cit = mkCitation h) ∧
    List.Sorted citGE (extractCitations hits) ∧
    (∀ q : ℚ,
      (extractCitations hits).filter (fun c => decide (c.relevance_score = q)) =
        (citAux hits []).filter (fun c => decide (c.relevance_score = q))) := by
  refine ⟨?_, ?_, ?_, ?_⟩
  · intro p
    have hperm := (List.perm_insertionSort citGE (citAux hits [])).countP_eq
      (fun d => decide (d.pmcid = p))
    rw [extractCitations, hperm, citAux_countP p hits []]
    simp
  · intro cit hmem
    have hmem2 : cit ∈ citAux hits [] :=
      (List.mem_insertionSort citGE).mp hmem
    rcases citAux_mem hits [] cit hmem2 with hin | ⟨htru, _, h, hfind, hcit⟩
    · simp at hin
    · exact ⟨htru, h, hfind, hcit⟩
  · exact List.sorted_insertionSort citGE (citAux hits [])
  · intro q
    exact filter_insertionSort_citGE q (citAux hits [])

/-- Witness for C2 at the concrete hit list `[c2hitA, c2hitB]`. -/
theorem C2_citations_amended_witness :
    ((extractCitations [c2hitA, c2hitB]).countP
        (fun d => decide (d.pmcid = PyVal.pstr "P1")) =
      (if (pyTruthy (.pstr "P1") &&
           [c2hitA, c2hitB].any (fun h => decide (h.pmcidV = PyVal.pstr "P1"))) = true
       then 1 else 0)) ∧
    (pyTruthy (mkCitation c2hitA).pmcid = true ∧
      ∃ h, [c2hitA, c2hitB].find?
          (fun x => decide (x.pmcidV = (mkCitation c2hitA).pmcid)) = some h ∧
        mkCitation c2hitA = mkCitation h) ∧
    List.Sorted citGE (extractCitations [c2hitA, c2hitB]) ∧
    ((extractCitations [c2hitA, c2hitB]).filter
        (fun c => decide (c.relevance_score = 1)) =
      (citAux [c2hitA, c2hitB] []).filter (fun c => decide (c.relevance_score = 1))) := by
  have h := C2_citations_amended [c2hitA, c2hitB]
  exact ⟨h.1 (.pstr "P1"), h.2.1 (mkCitation c2hitA) (by decide), h.2.2.1, h.2.2.2 1⟩

/-- A JSON decoder that always fails, for concrete instantiations. -/
def parseNone : String → Option PyVal :=
  fun _ => Option.none

/-- A chunk whose `proteins_mentioned` metadata is a list containing the
integer 1 rather than strings, for the C10 counterexample. -/
def c10chunk : ChunkResult :=
  ⟨"c", "", 0, [("proteins_mentioned", .plist [.sint 1])]⟩

/-- C10 counterexample: with a list-shaped metadata value whose element is
not a string, both engines' accessors return that list unchanged — the
result contains a non-string, refuting "return a list of strings"
(`pyStrListOpt` is `some` exactly on lists of strings). -/
theorem C10_claim_counterexample :
    proteinsMentionedRawC parseNone c10chunk = .plist [.sint 1] ∧
    proteinsMentionedRawN c10chunk = .plist [.sint 1] ∧
    pyStrListOpt (.plist [.sint 1]) = Option.none := by
  decide

/-- C10 amended: the accessors are total and never raise; a missing key
(which reads back as the default), a non-list non-string value, an empty
string and a malformed JSON string all yield the empty list; a list value is
returned unchanged, whether or not its elements are strings; and a
successfully decoded JSON string yields whatever value the decoder produced
(not necessarily a list of strings).  The Neon accessors never decode JSON:
any non-list value, strings included, yields the empty list. -/
theorem C10_accessors_amended (parse : String → Option PyVal) (c : ChunkResult) :
    (∀ s, mdGet c.metadata "proteins_mentioned" (.pstr "") = .pstr s →
      (s = "" → proteinsMentionedRawC parse c = .plist []) ∧
      (parse s = Option.none → proteinsMentionedRawC parse c = .plist []) ∧
      (∀ w, s ≠ "" → parse s = some w → proteinsMentionedRawC parse c = w)) ∧
    (∀ l, mdGet c.metadata "proteins_mentioned" (.pstr "") = .plist l →
      proteinsMentionedRawC parse c = .plist l) ∧
    ((∀ s, mdGet c.metadata "proteins_mentioned" (.pstr "") ≠ .pstr s) →
     (∀ l, mdGet c.metadata "proteins_mentioned" (.pstr "") ≠ .plist l) →
      proteinsMentionedRawC parse c = .plist []) ∧
    (∀ s, mdGet c.metadata "aging_theories" (.pstr "") = .pstr s →
      (s = "" → theoriesRawC parse c = .plist []) ∧
      (parse s = Option.none → theoriesRawC parse c = .plist []) ∧
      (∀ w, s ≠ "" → parse s = some w → theoriesRawC parse c = w)) ∧
    (∀ l, mdGet c.metadata "aging_theories" (.pstr "") = .plist l →
      theoriesRawC parse c = .plist l) ∧
    ((∀ s, mdGet c.metadata "aging_theories" (.pstr "") ≠ .pstr s) →
     (∀ l, mdGet c.metadata "aging_theories" (.pstr "") ≠ .plist l) →
      theoriesRawC parse c = .plist []) ∧
    (∀ l, mdGet c.metadata "proteins_mentioned" (.plist []) = .plist l →
      proteinsMentionedRawN c = .plist l) ∧
    ((∀ l, mdGet c.metadata "proteins_mentioned" (.plist []) ≠ .plist l) →
      proteinsMentionedRawN c = .plist []) ∧
    (∀ l, mdGet c.metadata "aging_theories" (.plist []) = .plist l →
      theoriesRawN c = .plist l) ∧
    ((∀ l, mdGet c.metadata "aging_theories" (.plist []) ≠ .plist l) →
      theoriesRawN c = .plist []) := by
  refine ⟨?_, ?_, ?_, ?_, ?_, ?_, ?_, ?_, ?_, ?_⟩
  · intro s hs
    refine ⟨?_, ?_, ?_⟩
    · intro he; subst he; simp [proteinsMentionedRawC, hs]
    · intro hp
      by_cases he : s = ""
      · subst he; simp [proteinsMentionedRawC, hs]
      · simp [proteinsMentionedRawC, hs, hp, he]
    · intro w he hp
      simp [proteinsMentionedRawC, hs, hp, he]
  · intro l hl
    simp [proteinsMentionedRawC, hl]
  · intro hns hnl
    unfold proteinsMentionedRawC
    rcases hv : mdGet c.metadata "proteins_mentioned" (.pstr "") with _ | b | n | q | s | l
    · simp
    · simp
    · simp
    · simp
    · exact absurd hv (hns s)
    · exact absurd hv (hnl l)
  · intro s hs
    refine ⟨?_, ?_, ?_⟩
    · intro he; subst he; simp [theoriesRawC, hs]
    · intro hp
      by_cases he : s = ""
      · subst he; simp [theoriesRawC, hs]
      · simp [theoriesRawC, hs, hp, he]
    · intro w he hp
      simp [theoriesRawC, hs, hp, he]
  · intro l hl
    simp [theoriesRawC, hl]
  · intro hns hnl
    unfold theoriesRawC
    rcases hv : mdGet c.metadata "aging_theories" (.pstr "") with _ | b | n | q | s | l
    · simp
    · simp
    · simp
    · simp
    · exact absurd hv (hns s)
    · exact absurd hv (hnl l)
  · intro l hl
    simp [proteinsMentionedRawN, hl]
  · intro hnl
    unfold proteinsMentionedRawN
    rcases hv : mdGet c.metadata "proteins_mentioned" (.plist []) with _ | b | n | q | s | l
    · simp
    · simp
    · simp
    · simp
    · simp
    · exact absurd hv (hnl l)
  · intro l hl
    simp [theoriesRawN, hl]
  · intro hnl
    unfold theoriesRawN
    rcases hv : mdGet c.metadata "aging_theories" (.plist []) with _ | b | n | q | s | l
    · simp
    · simp
    · simp
    · simp
    · simp
    · exact absurd hv (hnl l)

/-- A chunk whose protein field is a malformed JSON string and whose theory
field is an integer, for the C10 witness. -/
def c10bad : ChunkResult :=
  ⟨"c", "", 0, [("proteins_mentioned", .pstr "not json"), ("aging_theories", .pint 7)]⟩

/-- Witness for C10 at `c10bad` under the always-failing decoder: the
malformed JSON string and the non-list non-string value both yield the empty
list, on both engines. -/
theorem C10_accessors_amended_witness :
    proteinsMentionedRawC parseNone c10bad = .plist [] ∧
    theoriesRawC parseNone c10bad = .plist [] ∧
    proteinsMentionedRawN c10bad = .plist [] ∧
    theoriesRawN c10bad = .plist [] := by
  have h := C10_accessors_amended parseNone c10bad
  have hv1 : mdGet c10bad.metadata "aging_theories" (.pstr "") = PyVal.pint 7 := by
    decide
  have hv2 : mdGet c10bad.metadata "proteins_mentioned" (.plist []) =
      PyVal.pstr "not json" := by
    decide
  have hv3 : mdGet c10bad.metadata "aging_theories" (.plist []) = PyVal.pint 7 := by
    decide
  refine ⟨(h.1 "not json" (by decide)).2.1 rfl, ?_, ?_, ?_⟩
  · refine h.2.2.2.2.2.1 (fun s hs => ?_) (fun l hl => ?_)
    · rw [hv1] at hs; exact PyVal.noConfusion hs
    · rw [hv1] at hl; exact PyVal.noConfusion hl
  · refine h.2.2.2.2.2.2.2.1 (fun l hl => ?_)
    rw [hv2] at hl; exact PyVal.noConfusion hl
  · refine h.2.2.2.2.2.2.2.2.2 (fun l hl => ?_)
    rw [hv3] at hl; exact PyVal.noConfusion hl

end ProteinSeq
